import Mathlib

/-
Verification of the manim-scroll render CLI (src/render/cli.py) and the
bundled scene template (src/render/templates/text_scene.py).

Shallow embedding conventions:
- A file produced by the renderer is modelled by its path relative to the
  output directory (Python builds absolute paths with rglob and then calls
  relative_to(media_dir); we store the relative form directly) together with
  its modification time.  Modification times are modelled as naturals: the
  claims only compare them.
- Python strings are sequences of characters; the resolution parser is
  embedded over List Char.  Python int() also accepts underscores between
  digits and non-ASCII digits; those inputs are outside the modelled subset
  and outside every theorem below.
- Python floats are modelled as rationals (the claims are about exact
  arithmetic identities, not rounding).
- Fallible steps return Except / Option.  An uncaught Python exception
  escaping main is the Except.error case; the process then exits non-zero
  without writing a manifest.
-/

namespace ManimScroll

/-- A file that exists under the output directory after the renderer runs:
its path relative to the output directory (posix form, any depth) and its
modification time. -/
structure FileEntry where
  path : String
  mtime : Nat
deriving DecidableEq

/-- Suffix test used to model the rglob patterns *.png, *.mp4, *.webm:
a glob pattern of that shape matches exactly the files whose name, hence
whose relative path, ends with the extension. -/
def hasSuffix (s pat : String) : Bool :=
  pat.data.isSuffixOf s.data

def isPng (f : FileEntry) : Bool := hasSuffix f.path ".png"

def isMp4 (f : FileEntry) : Bool := hasSuffix f.path ".mp4"

def isWebm (f : FileEntry) : Bool := hasSuffix f.path ".webm"

/-- Python max(files, key=mtime) keeps the current best and replaces it only
when a later element compares strictly greater, so the first element among
ties wins. -/
def maxStep (best y : FileEntry) : FileEntry :=
  if best.mtime < y.mtime then y else best

/-- Embedding of cli.py _find_latest: None on an empty list, otherwise the
element with the greatest mtime (first such element when mtimes tie). -/
def find_latest (files : List FileEntry) : Option FileEntry :=
  match files with
  | [] => none
  | x :: xs => some (xs.foldl maxStep x)

/-- The candidate list built by cli.py _collect_assets for the video:
[*media_dir.rglob("*.mp4"), *media_dir.rglob("*.webm")], i.e. all mp4
files followed by all webm files. -/
def videoCandidates (fs : List FileEntry) : List FileEntry :=
  fs.filter isMp4 ++ fs.filter isWebm

/-- Embedding of cli.py _collect_assets over the list of files present
under the output directory: the sorted relative paths of all png files,
and the relative path of the latest video candidate if any.  sorted() in
Python is a stable comparison sort; any comparison sort of strings agrees
with insertionSort by lexicographic order. -/
def collect_assets (fs : List FileEntry) : List String × Option String :=
  (List.insertionSort (· ≤ ·) ((fs.filter isPng).map FileEntry.path),
   (find_latest (videoCandidates fs)).map FileEntry.path)

/-- The props JSON file, reduced to the keys the claims mention.  inline is
the value of the "inline" key (false when absent, matching
props.get("inline", False)); padding is the "padding" key, kept optional
because its default differs between the two places that read it. -/
structure Props where
  inline : Bool := false
  padding : Option ℚ := none
deriving DecidableEq

/-- props.get("inline", False) as computed by cli.py main after
_load_props_file: a missing --props argument or a missing file both yield
the empty dict, hence false. -/
def propsInline : Option Props → Bool
  | none => false
  | some p => p.inline

/-- The --format choice of the CLI. -/
inductive OutputFormat
  | frames
  | video
  | both
deriving DecidableEq

/-- args.format in ("frames", "both"). -/
def framesRequested : OutputFormat → Bool
  | .frames => true
  | .both => true
  | .video => false

/-- args.format in ("video", "both"). -/
def videoRequested : OutputFormat → Bool
  | .video => true
  | .both => true
  | .frames => false

/-- The parsed command line of cli.py main, restricted to the fields the
claims depend on. -/
structure Args where
  sceneName : String
  format : OutputFormat
  fps : Int
  width : Int
  height : Int
  videoFormat : String
  props : Option Props
  transparent : Bool
deriving DecidableEq

/-- State of the bounds side-channel file (bounds.json) once all renderer
invocations have finished: the file can be missing, hold malformed content
on which json.loads raises, or parse to an object whose aspectRatio key is
absent or holds a number. -/
inductive BoundsState
  | missing
  | malformed
  | parsed (value : Option ℚ)
deriving DecidableEq

/-- Embedding of the bounds consumption in cli.py main:
aspect_ratio starts as None; when the file exists the code tries
json.loads and .get("aspectRatio") and swallows every exception. -/
def readAspect : BoundsState → Option ℚ
  | .missing => none
  | .malformed => none
  | .parsed v => v

/-- Environment of one orchestrator run: the exit status of each renderer
invocation, the files each invocation would add under the output
directory, the files already present there before the run (main only calls
mkdir(exist_ok=True), it never cleans the directory), and the final state
of the bounds side-channel file. -/
structure RenderEnv where
  framesExit : Nat
  framesOut : List FileEntry
  videoExit : Nat
  videoOut : List FileEntry
  initialFiles : List FileEntry
  bounds : BoundsState
deriving DecidableEq

/-- The RenderManifest dataclass of cli.py.  The aspect field carries the
JSON key aspectRatio. -/
structure RenderManifest where
  scene : String
  fps : Int
  width : Int
  height : Int
  frames : List String
  video : Option String
  transparent : Bool
  inline : Bool
  aspect : Option ℚ
deriving DecidableEq

/-- Result of a successful run: the manifest written to manifest.json plus
the container format passed to the video invocation when one ran. -/
structure MainResult where
  manifest : RenderManifest
  videoFormatUsed : Option String
deriving DecidableEq

/-- The RuntimeError message raised by cli.py _run_manim. -/
def manimFailMsg : String := "Manim render failed. Check the command and logs."

/-- Contents of the output directory once the requested invocations have
run: whatever was already there plus the outputs of each invocation that
was requested. -/
def mainFiles (args : Args) (env : RenderEnv) : List FileEntry :=
  env.initialFiles
    ++ (if framesRequested args.format then env.framesOut else [])
    ++ (if videoRequested args.format then env.videoOut else [])

/-- Embedding of cli.py main.  Mirrors the source order: compute inline
from the props file and the --transparent flag, run the frames invocation
then the video invocation (each raising RuntimeError on a non-zero exit,
which aborts the run before the manifest is written), force the container
format to webm when inline or transparent, then collect assets, read the
bounds side channel and write the manifest.  Except.ok is the path on
which manifest.json gets written; Except.error is the uncaught exception
path, where nothing is written and the process exits non-zero. -/
def main (args : Args) (env : RenderEnv) : Except String MainResult :=
  let inline := propsInline args.props || args.transparent
  if framesRequested args.format && env.framesExit != 0 then
    Except.error manimFailMsg
  else if videoRequested args.format && env.videoExit != 0 then
    Except.error manimFailMsg
  else
    let videoFmt := if inline || args.transparent then "webm" else args.videoFormat
    let assets := collect_assets (mainFiles args env)
    Except.ok
      { manifest :=
          { scene := args.sceneName
            fps := args.fps
            width := args.width
            height := args.height
            frames := assets.1
            video := assets.2
            transparent := inline || args.transparent
            inline := inline
            aspect := readAspect env.bounds }
        videoFormatUsed :=
          if videoRequested args.format then some videoFmt else none }

/-- Exit status of the process: sys.exit(main()) returns 0 on success, and
an uncaught exception makes the interpreter exit with status 1. -/
def exitStatus : Except String MainResult → Nat
  | .error _ => 1
  | .ok _ => 0

/-- Decimal digit test, matching the ASCII digits accepted by int(). -/
def isDigitChar (c : Char) : Bool := '0' ≤ c && c ≤ '9'

/-- Whitespace stripped by str.strip() inside int() (ASCII subset). -/
def isSpaceChar (c : Char) : Bool :=
  c = ' ' || c = '\t' || c = '\n' || c = '\r'

/-- Strip leading and trailing whitespace, as int() does. -/
def pyStrip (s : List Char) : List Char :=
  ((s.dropWhile isSpaceChar).reverse.dropWhile isSpaceChar).reverse

/-- Value of a list of decimal digits. -/
def decVal (l : List Char) : Nat :=
  l.foldl (fun n c => 10 * n + (c.toNat - 48)) 0

/-- Digit-string part of int(): a nonempty all-digit string has the usual
decimal value, anything else raises ValueError. -/
def natDigits (l : List Char) : Option Nat :=
  if l.isEmpty then none
  else if l.all isDigitChar then some (decVal l) else none

/-- Embedding of Python int() on a string: strip whitespace, allow one
optional sign, then decimal digits; None models the ValueError raised on
anything else. -/
def pyInt (s : List Char) : Option Int :=
  match pyStrip s with
  | [] => none
  | c :: rest =>
    if c = '+' then (natDigits rest).map (fun n => (n : Int))
    else if c = '-' then (natDigits rest).map (fun n => -(n : Int))
    else (natDigits (c :: rest)).map (fun n => (n : Int))

/-- Substring membership for a one-character separator, modelling the
Python expression sep in value. -/
def pyContains (sep : Char) (s : List Char) : Bool :=
  s.any (fun d => d == sep)

/-- value.split(sep, 1) when sep occurs in value: the part before the
first occurrence and the part after it. -/
def splitOnce (sep : Char) : List Char → List Char × List Char
  | [] => ([], [])
  | c :: rest =>
    if c = sep then ([], rest)
    else
      let p := splitOnce sep rest
      (c :: p.1, p.2)

/-- Embedding of cli.py _parse_resolution: split on the first x if one
occurs, otherwise on the first comma if one occurs, otherwise raise
ArgumentTypeError; then convert both parts with int(), whose ValueError
also rejects the argument. -/
def parse_resolution (s : List Char) : Except String (Int × Int) :=
  if pyContains 'x' s then
    let p := splitOnce 'x' s
    match pyInt p.1, pyInt p.2 with
    | some w, some h => Except.ok (w, h)
    | _, _ => Except.error "invalid literal for int"
  else if pyContains ',' s then
    let p := splitOnce ',' s
    match pyInt p.1, pyInt p.2 with
    | some w, some h => Except.ok (w, h)
    | _, _ => Except.error "invalid literal for int"
  else
    Except.error "Resolution must be WxH or W,H"

/-- The JSON object written by text_scene.py _write_bounds_info.  The
aspect field carries the JSON key aspectRatio; the echoed padding uses
props.get("padding", 0), a different default from the one used in the
geometry. -/
structure BoundsOut where
  textWidth : ℚ
  textHeight : ℚ
  aspect : ℚ
  inline : Bool
  padding : ℚ
deriving DecidableEq

/-- Embedding of text_scene.py _write_bounds_info: nothing is written when
the MANIM_SCROLL_BOUNDS_OUT variable is absent, otherwise the bounds JSON
object is written. -/
def write_bounds_info (boundsPathSet : Bool) (w h a : ℚ) (props : Props) :
    Option BoundsOut :=
  if boundsPathSet then
    some { textWidth := w
           textHeight := h
           aspect := a
           inline := props.inline
           padding := props.padding.getD 0 }
  else none

/-- Embedding of the bounds-producing part of TextScene.construct in
text_scene.py: textWidth and textHeight are the measured dimensions of the
laid-out text (inputs to the model, produced by the renderer).  Only in
inline mode the scene pads both dimensions by twice the padding
(props.get("padding", 0.1)), derives the aspect ratio from the padded
dimensions with 1 as fallback when the padded height is not positive, and
writes the bounds file.  The returned value is the file written, none when
nothing is written. -/
def construct (props : Props) (textWidth textHeight : ℚ)
    (boundsPathSet : Bool) : Option BoundsOut :=
  let padding := props.padding.getD (1 / 10)
  if props.inline then
    let paddedWidth := textWidth + padding * 2
    let paddedHeight := textHeight + padding * 2
    let a := if 0 < paddedHeight then paddedWidth / paddedHeight else 1
    write_bounds_info boundsPathSet textWidth textHeight a props
  else
    none

/-! Helper lemmas about the latest-file selection. -/

theorem foldl_maxStep_mem (xs : List FileEntry) (x : FileEntry) :
    xs.foldl maxStep x ∈ x :: xs := by
  induction xs generalizing x with
  | nil => simp [List.foldl]
  | cons y ys ih =>
    rw [List.foldl_cons]
    rcases List.mem_cons.mp (ih (maxStep x y)) with h1 | h2
    · rw [h1]
      by_cases hc : x.mtime < y.mtime <;> simp [maxStep, hc]
    · exact List.mem_cons_of_mem _ (List.mem_cons_of_mem _ h2)

theorem foldl_maxStep_ge (xs : List FileEntry) (x : FileEntry) :
    ∀ y ∈ x :: xs, y.mtime ≤ (xs.foldl maxStep x).mtime := by
  induction xs generalizing x with
  | nil =>
    intro y hy
    simp only [List.foldl_nil]
    rcases List.mem_cons.mp hy with h1 | h2
    · rw [h1]
    · simp at h2
  | cons z zs ih =>
    intro y hy
    rw [List.foldl_cons]
    have hx : x.mtime ≤ (maxStep x z).mtime := by
      unfold maxStep; split <;> omega
    have hz : z.mtime ≤ (maxStep x z).mtime := by
      unfold maxStep; split <;> omega
    have hhead := ih (maxStep x z) (maxStep x z) (List.mem_cons_self _ _)
    rcases List.mem_cons.mp hy with h1 | h2
    · rw [h1]; exact le_trans hx hhead
    · rcases List.mem_cons.mp h2 with h3 | h4
      · rw [h3]; exact le_trans hz hhead
      · exact ih (maxStep x z) y (List.mem_cons_of_mem _ h4)

theorem find_latest_mem_ge (files : List FileEntry) (h : files ≠ []) :
    ∃ m, find_latest files = some m ∧ m ∈ files ∧ ∀ y ∈ files, y.mtime ≤ m.mtime := by
  match files with
  | [] => exact absurd rfl h
  | x :: xs =>
    exact ⟨xs.foldl maxStep x, rfl, foldl_maxStep_mem xs x, foldl_maxStep_ge xs x⟩

/-- C1: video discovery over the files under the output directory: when the
candidate list (all mp4 files, then all webm files) is empty, collection
returns no video path and no error; when there are at least two candidates
with pairwise distinct modification times, collection returns exactly the
relative path of the candidate with the latest modification time. -/
theorem videoDiscovery_correct (fs : List FileEntry) :
    (videoCandidates fs = [] → (collect_assets fs).2 = none) ∧
    (2 ≤ (videoCandidates fs).length →
      (videoCandidates fs).Pairwise (fun u v => u.mtime ≠ v.mtime) →
      ∃ e, e ∈ videoCandidates fs ∧
        (∀ f ∈ videoCandidates fs, f ≠ e → f.mtime < e.mtime) ∧
        (collect_assets fs).2 = some e.path) := by
  constructor
  · intro h
    show (find_latest (videoCandidates fs)).map FileEntry.path = none
    rw [h]
    rfl
  · intro hlen hpw
    have hne : videoCandidates fs ≠ [] := by
      intro h
      rw [h] at hlen
      simp at hlen
    obtain ⟨m, hfl, hmem, hge⟩ := find_latest_mem_ge _ hne
    refine ⟨m, hmem, ?_, ?_⟩
    · intro f hf hfm
      have hsym : Symmetric (fun u v : FileEntry => u.mtime ≠ v.mtime) :=
        fun u v huv => Ne.symm huv
      have hne2 : f.mtime ≠ m.mtime := List.Pairwise.forall hsym hpw hf hmem hfm
      exact lt_of_le_of_ne (hge f hf) hne2
    · show (find_latest (videoCandidates fs)).map FileEntry.path = some m.path
      rw [hfl]
      rfl

theorem videoDiscovery_correct_witness :
    ∃ e, e ∈ videoCandidates [⟨"v/a.mp4", 3⟩, ⟨"w/b.webm", 7⟩] ∧
      (∀ f ∈ videoCandidates [⟨"v/a.mp4", 3⟩, ⟨"w/b.webm", 7⟩], f ≠ e → f.mtime < e.mtime) ∧
      (collect_assets [⟨"v/a.mp4", 3⟩, ⟨"w/b.webm", 7⟩]).2 = some e.path :=
  (videoDiscovery_correct [⟨"v/a.mp4", 3⟩, ⟨"w/b.webm", 7⟩]).2 (by decide) (by decide)

/-- Helper: a comparison sort returns the empty list only on the empty list. -/
theorem insertionSort_eq_nil_iff {α : Type} {r : α → α → Prop} [DecidableRel r]
    {l : List α} : List.insertionSort r l = [] ↔ l = [] := by
  constructor
  · intro h
    have hl := (List.perm_insertionSort r l).length_eq
    rw [h] at hl
    exact List.length_eq_zero.mp hl.symm
  · intro h
    rw [h]
    rfl

/-- C2: frame discovery returns one relative path per png file under the
output directory, the result is lexicographically sorted, and it does not
depend on the order in which the filesystem enumerates the files. -/
theorem frameDiscovery_correct (fs : List FileEntry) :
    (collect_assets fs).1.length = (fs.filter isPng).length ∧
    List.Sorted (· ≤ ·) (collect_assets fs).1 ∧
    ∀ fs2, List.Perm fs fs2 → (collect_assets fs2).1 = (collect_assets fs).1 := by
  refine ⟨?_, ?_, ?_⟩
  · show (List.insertionSort (· ≤ ·) ((fs.filter isPng).map FileEntry.path)).length = _
    rw [(List.perm_insertionSort _ _).length_eq]
    exact List.length_map _ _
  · exact List.sorted_insertionSort _ _
  · intro fs2 hp
    show List.insertionSort (· ≤ ·) ((fs2.filter isPng).map FileEntry.path) =
      List.insertionSort (· ≤ ·) ((fs.filter isPng).map FileEntry.path)
    refine List.eq_of_perm_of_sorted ?_ (List.sorted_insertionSort _ _)
      (List.sorted_insertionSort _ _)
    exact (List.perm_insertionSort _ _).trans
      (((hp.symm.filter _).map _).trans (List.perm_insertionSort _ _).symm)

theorem frameDiscovery_correct_witness :
    (collect_assets [⟨"b.png", 0⟩, ⟨"a.png", 0⟩, ⟨"m.mp4", 3⟩]).1 =
      (collect_assets [⟨"a.png", 0⟩, ⟨"b.png", 0⟩, ⟨"m.mp4", 3⟩]).1 :=
  (frameDiscovery_correct [⟨"a.png", 0⟩, ⟨"b.png", 0⟩, ⟨"m.mp4", 3⟩]).2.2
    [⟨"b.png", 0⟩, ⟨"a.png", 0⟩, ⟨"m.mp4", 3⟩] (by decide)

/-- Helper: the value main produces when every requested invocation exits
with status zero. -/
theorem main_eq_ok (args : Args) (env : RenderEnv)
    (hfe : framesRequested args.format = true → env.framesExit = 0)
    (hve : videoRequested args.format = true → env.videoExit = 0) :
    main args env = Except.ok
      { manifest :=
          { scene := args.sceneName
            fps := args.fps
            width := args.width
            height := args.height
            frames := (collect_assets (mainFiles args env)).1
            video := (collect_assets (mainFiles args env)).2
            transparent := propsInline args.props || args.transparent
            inline := propsInline args.props || args.transparent
            aspect := readAspect env.bounds }
        videoFormatUsed :=
          if videoRequested args.format then
            some (if propsInline args.props || args.transparent then "webm"
              else args.videoFormat)
          else none } := by
  have h1 : (framesRequested args.format && env.framesExit != 0) = false := by
    cases hF : framesRequested args.format
    · simp
    · simp [hfe hF]
  have h2 : (videoRequested args.format && env.videoExit != 0) = false := by
    cases hV : videoRequested args.format
    · simp
    · simp [hve hV]
  simp [main, h1, h2]

/-- C5: whenever a requested renderer invocation exits with a non-zero
status, main raises the fatal RuntimeError before the manifest is written
(the error result carries no manifest) and the process exit status is
non-zero. -/
theorem rendererFailureAborts (args : Args) (env : RenderEnv)
    (h : (framesRequested args.format = true ∧ env.framesExit ≠ 0) ∨
         (videoRequested args.format = true ∧ env.videoExit ≠ 0)) :
    main args env = Except.error manimFailMsg ∧ exitStatus (main args env) ≠ 0 := by
  have hmain : main args env = Except.error manimFailMsg := by
    rcases h with ⟨hr, hx⟩ | ⟨hr, hx⟩
    · simp [main, hr, hx]
    · cases hc : (framesRequested args.format && env.framesExit != 0)
      · simp [main, hc, hr, hx]
      · simp [main, hc]
  rw [hmain]
  exact ⟨rfl, by simp [exitStatus]⟩

theorem rendererFailureAborts_witness :
    main
        { sceneName := "TextScene", format := OutputFormat.both, fps := 30,
          width := 1280, height := 720, videoFormat := "mp4", props := none,
          transparent := false }
        { framesExit := 0, framesOut := [], videoExit := 2, videoOut := [],
          initialFiles := [], bounds := BoundsState.missing } =
      Except.error manimFailMsg ∧
    exitStatus
        (main
          { sceneName := "TextScene", format := OutputFormat.both, fps := 30,
            width := 1280, height := 720, videoFormat := "mp4", props := none,
            transparent := false }
          { framesExit := 0, framesOut := [], videoExit := 2, videoOut := [],
            initialFiles := [], bounds := BoundsState.missing }) ≠ 0 :=
  rendererFailureAborts _ _ (Or.inr ⟨rfl, by decide⟩)

/-- C4: when every requested invocation succeeds, a bounds side-channel
failure of any kind (file missing, malformed content, or missing
aspectRatio key) is swallowed: main still returns a manifest, whose
aspectRatio is None. -/
theorem boundsFailureSwallowed (args : Args) (env : RenderEnv)
    (hfe : framesRequested args.format = true → env.framesExit = 0)
    (hve : videoRequested args.format = true → env.videoExit = 0)
    (hb : env.bounds = BoundsState.missing ∨ env.bounds = BoundsState.malformed ∨
          env.bounds = BoundsState.parsed none) :
    ∃ r, main args env = Except.ok r ∧ r.manifest.aspect = none := by
  refine ⟨_, main_eq_ok args env hfe hve, ?_⟩
  rcases hb with hb | hb | hb <;> simp [hb, readAspect]

theorem boundsFailureSwallowed_witness :
    ∃ r, main
        { sceneName := "TextScene", format := OutputFormat.both, fps := 30,
          width := 1920, height := 1080, videoFormat := "mp4",
          props := some { inline := true, padding := none }, transparent := false }
        { framesExit := 0, framesOut := [], videoExit := 0, videoOut := [],
          initialFiles := [], bounds := BoundsState.missing } = Except.ok r ∧
      r.manifest.aspect = none :=
  boundsFailureSwallowed _ _ (by decide) (by decide) (Or.inl rfl)

/-- C10: when every requested invocation succeeds and the bounds file
parses with an aspectRatio value, the manifest carries that value for
every configuration, in particular also when inline mode is not active:
main never consults the inline flag before consuming the bounds file. -/
theorem boundsReadIgnoresInline (args : Args) (env : RenderEnv) (q : ℚ)
    (hfe : framesRequested args.format = true → env.framesExit = 0)
    (hve : videoRequested args.format = true → env.videoExit = 0)
    (hb : env.bounds = BoundsState.parsed (some q)) :
    ∃ r, main args env = Except.ok r ∧ r.manifest.aspect = some q := by
  refine ⟨_, main_eq_ok args env hfe hve, ?_⟩
  simp [hb, readAspect]

theorem boundsReadIgnoresInline_witness :
    ∃ r, main
        { sceneName := "TextScene", format := OutputFormat.both, fps := 30,
          width := 1920, height := 1080, videoFormat := "mp4", props := none,
          transparent := false }
        { framesExit := 0, framesOut := [], videoExit := 0, videoOut := [],
          initialFiles := [], bounds := BoundsState.parsed (some (3 / 2)) } =
      Except.ok r ∧ r.manifest.aspect = some (3 / 2) :=
  boundsReadIgnoresInline _ _ (3 / 2) (by decide) (by decide) rfl

/-- C9: in every manifest main writes, the transparent field equals the
inline field, and both equal the disjunction of the props-file inline key
and the command-line transparency flag; transparency is therefore reported
true even when only the props-file inline key is set. -/
theorem manifestTransparentEqInline (args : Args) (env : RenderEnv)
    (hfe : framesRequested args.format = true → env.framesExit = 0)
    (hve : videoRequested args.format = true → env.videoExit = 0) :
    ∃ r, main args env = Except.ok r ∧
      r.manifest.transparent = r.manifest.inline ∧
      r.manifest.inline = (propsInline args.props || args.transparent) :=
  ⟨_, main_eq_ok args env hfe hve, rfl, rfl⟩

theorem manifestTransparentEqInline_witness :
    ∃ r, main
        { sceneName := "TextScene", format := OutputFormat.both, fps := 30,
          width := 1920, height := 1080, videoFormat := "mp4",
          props := some { inline := true, padding := none }, transparent := false }
        { framesExit := 0, framesOut := [], videoExit := 0, videoOut := [],
          initialFiles := [], bounds := BoundsState.missing } = Except.ok r ∧
      r.manifest.transparent = r.manifest.inline ∧
      r.manifest.inline =
        (propsInline (some { inline := true, padding := none }) || false) :=
  manifestTransparentEqInline _ _ (by decide) (by decide)

/-- C7: whenever the video invocation runs, its container format is webm
exactly when the props-file inline key or the transparency flag is active,
and the user-selected container format otherwise. -/
theorem videoFormatForced (args : Args) (env : RenderEnv)
    (hfe : framesRequested args.format = true → env.framesExit = 0)
    (hve : videoRequested args.format = true → env.videoExit = 0)
    (hreq : videoRequested args.format = true) :
    ∃ r, main args env = Except.ok r ∧
      ((propsInline args.props || args.transparent) = true →
        r.videoFormatUsed = some "webm") ∧
      ((propsInline args.props || args.transparent) = false →
        r.videoFormatUsed = some args.videoFormat) := by
  refine ⟨_, main_eq_ok args env hfe hve, ?_, ?_⟩ <;> intro hc <;> simp [hreq, hc]

theorem videoFormatForced_witness :
    ∃ r, main
        { sceneName := "TextScene", format := OutputFormat.both, fps := 30,
          width := 1920, height := 1080, videoFormat := "mp4", props := none,
          transparent := true }
        { framesExit := 0, framesOut := [], videoExit := 0, videoOut := [],
          initialFiles := [], bounds := BoundsState.missing } = Except.ok r ∧
      ((propsInline none || true) = true → r.videoFormatUsed = some "webm") ∧
      ((propsInline none || true) = false → r.videoFormatUsed = some "mp4") :=
  videoFormatForced _ _ (by decide) (by decide) rfl

/-- C3 counterexample: main never consults the requested format when
collecting assets, and it never cleans the output directory.  With format
video and a stale png file already under the output directory, the written
manifest has a non-empty frames list although frame output was not
requested and the renderer produced no frame file, refuting the claimed
biconditional. -/
theorem manifestInvariant_counterexample :
    framesRequested OutputFormat.video = false ∧
    (main
        { sceneName := "TextScene", format := OutputFormat.video, fps := 30,
          width := 1920, height := 1080, videoFormat := "mp4", props := none,
          transparent := false }
        { framesExit := 0, framesOut := [], videoExit := 0,
          videoOut := [{ path := "videos/out.mp4", mtime := 5 }],
          initialFiles := [{ path := "stale.png", mtime := 1 }],
          bounds := BoundsState.missing }).toOption.map
      (fun r => r.manifest.frames) = some ["stale.png"] :=
  ⟨rfl, rfl⟩

/-- C3 amended: for a clean run, that is, a run on an initially empty
output directory in which the frame invocation yields only png files and
the video invocation yields only video files, the manifest has an empty
frames list if and only if frame output was not requested or the renderer
produced no frame file, and carries a video path only if video output was
requested and the renderer produced at least one candidate.  Without the
clean-run assumption the code scans whatever is under the output
directory, regardless of what was requested. -/
theorem manifestFields_amended (args : Args) (env : RenderEnv)
    (hclean : env.initialFiles = [])
    (hfo : ∀ f ∈ env.framesOut, isPng f = true ∧ isMp4 f = false ∧ isWebm f = false)
    (hvo : ∀ f ∈ env.videoOut, isPng f = false)
    (hfe : framesRequested args.format = true → env.framesExit = 0)
    (hve : videoRequested args.format = true → env.videoExit = 0) :
    ∃ r, main args env = Except.ok r ∧
      (r.manifest.frames = [] ↔
        (framesRequested args.format = false ∨ env.framesOut = [])) ∧
      (∀ v, r.manifest.video = some v →
        videoRequested args.format = true ∧ env.videoOut ≠ []) := by
  have hfoPng : env.framesOut.filter isPng = env.framesOut :=
    List.filter_eq_self.mpr fun f hf => (hfo f hf).1
  have hvoPng : env.videoOut.filter isPng = [] :=
    List.filter_eq_nil_iff.mpr fun f hf => by simp [hvo f hf]
  have hfoMp4 : env.framesOut.filter isMp4 = [] :=
    List.filter_eq_nil_iff.mpr fun f hf => by simp [(hfo f hf).2.1]
  have hfoWebm : env.framesOut.filter isWebm = [] :=
    List.filter_eq_nil_iff.mpr fun f hf => by simp [(hfo f hf).2.2]
  refine ⟨_, main_eq_ok args env hfe hve, ?_, ?_⟩
  · show (collect_assets (mainFiles args env)).1 = [] ↔ _
    have he : (collect_assets (mainFiles args env)).1 =
        List.insertionSort (· ≤ ·)
          (((mainFiles args env).filter isPng).map FileEntry.path) := rfl
    rw [he, insertionSort_eq_nil_iff, List.map_eq_nil_iff]
    cases hF : framesRequested args.format <;> cases hV : videoRequested args.format <;>
      simp [mainFiles, hclean, hF, hV, List.filter_append, hfoPng, hvoPng]
  · intro v hv
    have hv2 : (find_latest (videoCandidates (mainFiles args env))).map
        FileEntry.path = some v := hv
    constructor
    · cases hV : videoRequested args.format
      · exfalso
        have hc : videoCandidates (mainFiles args env) = [] := by
          cases hF : framesRequested args.format <;>
            simp [videoCandidates, mainFiles, hclean, hF, hV, List.filter_append,
              hfoMp4, hfoWebm]
        rw [hc] at hv2
        simp [find_latest] at hv2
      · rfl
    · intro hnil
      have hc : videoCandidates (mainFiles args env) = [] := by
        cases hF : framesRequested args.format <;>
          cases hV : videoRequested args.format <;>
            simp [videoCandidates, mainFiles, hclean, hF, hV, hnil,
              List.filter_append, hfoMp4, hfoWebm]
      rw [hc] at hv2
      simp [find_latest] at hv2

theorem manifestFields_amended_witness :
    ∃ r, main
        { sceneName := "TextScene", format := OutputFormat.both, fps := 30,
          width := 1920, height := 1080, videoFormat := "mp4", props := none,
          transparent := false }
        { framesExit := 0, framesOut := [{ path := "f0001.png", mtime := 1 }],
          videoExit := 0, videoOut := [{ path := "m.mp4", mtime := 2 }],
          initialFiles := [], bounds := BoundsState.missing } = Except.ok r ∧
      (r.manifest.frames = [] ↔
        (framesRequested OutputFormat.both = false ∨
          [({ path := "f0001.png", mtime := 1 } : FileEntry)] = [])) ∧
      (∀ v, r.manifest.video = some v →
        videoRequested OutputFormat.both = true ∧
          [({ path := "m.mp4", mtime := 2 } : FileEntry)] ≠ []) :=
  manifestFields_amended _ _ rfl (by decide) (by decide) (by decide) (by decide)

/-! Helper lemmas about the resolution parser. -/

theorem digit_ne (c : Char) (h : isDigitChar c = true) :
    c ≠ 'x' ∧ c ≠ ',' ∧ c ≠ '+' ∧ c ≠ '-' ∧ isSpaceChar c = false := by
  have hx : c ≠ 'x' := by rintro rfl; exact absurd h (by decide)
  have hc : c ≠ ',' := by rintro rfl; exact absurd h (by decide)
  have hp : c ≠ '+' := by rintro rfl; exact absurd h (by decide)
  have hm : c ≠ '-' := by rintro rfl; exact absurd h (by decide)
  have h1 : c ≠ ' ' := by rintro rfl; exact absurd h (by decide)
  have h2 : c ≠ '\t' := by rintro rfl; exact absurd h (by decide)
  have h3 : c ≠ '\n' := by rintro rfl; exact absurd h (by decide)
  have h4 : c ≠ '\r' := by rintro rfl; exact absurd h (by decide)
  exact ⟨hx, hc, hp, hm, by simp [isSpaceChar, h1, h2, h3, h4]⟩

theorem dropWhile_space_digits (m : List Char)
    (hm : ∀ c ∈ m, isDigitChar c = true) : m.dropWhile isSpaceChar = m := by
  cases m with
  | nil => rfl
  | cons c rest =>
    rw [List.dropWhile_cons, (digit_ne c (hm c (List.mem_cons_self _ _))).2.2.2.2]
    simp

theorem pyStrip_digits (l : List Char) (h : ∀ c ∈ l, isDigitChar c = true) :
    pyStrip l = l := by
  unfold pyStrip
  rw [dropWhile_space_digits l h,
    dropWhile_space_digits l.reverse (fun c hc => h c (List.mem_reverse.mp hc))]
  exact List.reverse_reverse l

theorem natDigits_digits (l : List Char) (hne : l ≠ [])
    (h : ∀ c ∈ l, isDigitChar c = true) : natDigits l = some (decVal l) := by
  unfold natDigits
  rw [if_neg, if_pos]
  · exact List.all_eq_true.mpr h
  · simp [hne]

theorem pyInt_digits (l : List Char) (hne : l ≠ [])
    (h : ∀ c ∈ l, isDigitChar c = true) : pyInt l = some ((decVal l : Nat) : Int) := by
  unfold pyInt
  rw [pyStrip_digits l h]
  cases l with
  | nil => exact absurd rfl hne
  | cons c rest =>
    have hd := digit_ne c (h c (List.mem_cons_self _ _))
    simp only [if_neg hd.2.2.1, if_neg hd.2.2.2.1]
    rw [natDigits_digits (c :: rest) (by simp) h]
    rfl

theorem splitOnce_append (sep : Char) (a b : List Char)
    (ha : ∀ c ∈ a, c ≠ sep) : splitOnce sep (a ++ sep :: b) = (a, b) := by
  induction a with
  | nil => simp [splitOnce]
  | cons c rest ih =>
    have hc := ha c (List.mem_cons_self _ _)
    simp [splitOnce, hc, ih (fun d hd => ha d (List.mem_cons_of_mem _ hd))]

theorem pyContains_append_self (sep : Char) (a b : List Char) :
    pyContains sep (a ++ sep :: b) = true := by
  simp [pyContains]

theorem pyContains_eq_false (sep : Char) (s : List Char)
    (h : ∀ c ∈ s, c ≠ sep) : pyContains sep s = false := by
  rw [pyContains, List.any_eq_false]
  intro x hx
  simp [h x hx]

/-- C6 counterexample: the string 0x10 is not of the claimed form (its
width is not a positive integer), yet the parser accepts it and returns
(0, 10): positivity is never checked. -/
theorem parseResolution_counterexample :
    parse_resolution ['0', 'x', '1', '0'] = Except.ok ((0 : Int), (10 : Int)) := rfl

/-- C6 amended: for every string of the form WxH or W,H in which W and H
are nonempty decimal digit strings, not necessarily positive, the parser
returns the pair of their decimal values; every string containing neither
an x nor a comma is rejected with the ArgumentTypeError message; and every
separator-containing string one of whose components at the first separator
is not accepted by int() is rejected by the ValueError of int().  A
separator-containing string is accepted even when a component is zero, and
int() also tolerates signs and surrounding whitespace in the
components. -/
theorem parseResolution_amended :
    (∀ a b : List Char, a ≠ [] → b ≠ [] →
      (∀ c ∈ a, isDigitChar c = true) → (∀ c ∈ b, isDigitChar c = true) →
      parse_resolution (a ++ 'x' :: b) =
        Except.ok (((decVal a : Nat) : Int), ((decVal b : Nat) : Int)) ∧
      parse_resolution (a ++ ',' :: b) =
        Except.ok (((decVal a : Nat) : Int), ((decVal b : Nat) : Int))) ∧
    (∀ s : List Char, pyContains 'x' s = false → pyContains ',' s = false →
      parse_resolution s = Except.error "Resolution must be WxH or W,H") ∧
    (∀ s : List Char, pyContains 'x' s = true →
      pyInt (splitOnce 'x' s).1 = none ∨ pyInt (splitOnce 'x' s).2 = none →
      parse_resolution s = Except.error "invalid literal for int") ∧
    (∀ s : List Char, pyContains 'x' s = false → pyContains ',' s = true →
      pyInt (splitOnce ',' s).1 = none ∨ pyInt (splitOnce ',' s).2 = none →
      parse_resolution s = Except.error "invalid literal for int") := by
  refine ⟨?_, ?_, ?_, ?_⟩
  · intro a b ha hb hda hdb
    have hax : ∀ c ∈ a, c ≠ 'x' := fun c hc => (digit_ne c (hda c hc)).1
    have hbx : ∀ c ∈ b, c ≠ 'x' := fun c hc => (digit_ne c (hdb c hc)).1
    have hac : ∀ c ∈ a, c ≠ ',' := fun c hc => (digit_ne c (hda c hc)).2.1
    constructor
    · have hcont := pyContains_append_self 'x' a b
      rw [parse_resolution, if_pos hcont, splitOnce_append 'x' a b hax]
      simp [pyInt_digits a ha hda, pyInt_digits b hb hdb]
    · have hnox : pyContains 'x' (a ++ ',' :: b) = false := by
        apply pyContains_eq_false
        intro c hc
        rcases List.mem_append.mp hc with h1 | h2
        · exact hax c h1
        · rcases List.mem_cons.mp h2 with h3 | h4
          · rw [h3]; decide
          · exact hbx c h4
      have hcont := pyContains_append_self ',' a b
      rw [parse_resolution, if_neg (by simp [hnox]), if_pos hcont,
        splitOnce_append ',' a b hac]
      simp [pyInt_digits a ha hda, pyInt_digits b hb hdb]
  · intro s hx hc
    rw [parse_resolution, if_neg (by simp [hx]), if_neg (by simp [hc])]
  · intro s hs hbad
    rw [parse_resolution, if_pos hs]
    rcases hbad with h | h
    · cases h2 : pyInt (splitOnce 'x' s).2 <;> simp [h, h2]
    · cases h1 : pyInt (splitOnce 'x' s).1 <;> simp [h, h1]
  · intro s hnox hs hbad
    rw [parse_resolution, if_neg (by simp [hnox]), if_pos hs]
    rcases hbad with h | h
    · cases h2 : pyInt (splitOnce ',' s).2 <;> simp [h, h2]
    · cases h1 : pyInt (splitOnce ',' s).1 <;> simp [h, h1]

theorem parseResolution_amended_witness :
    parse_resolution (['1', '9', '2', '0'] ++ 'x' :: ['1', '0', '8', '0']) =
      Except.ok (((decVal ['1', '9', '2', '0'] : Nat) : Int),
        ((decVal ['1', '0', '8', '0'] : Nat) : Int)) ∧
    parse_resolution ['1', 'x', 'a', 'b'] =
      Except.error "invalid literal for int" :=
  ⟨(parseResolution_amended.1 ['1', '9', '2', '0'] ['1', '0', '8', '0']
      (by decide) (by decide) (by decide) (by decide)).1,
    parseResolution_amended.2.2.1 ['1', 'x', 'a', 'b'] (by decide)
      (Or.inr (by decide))⟩

/-- C8 counterexample: in inline mode with the default padding 1/10 and
measured text dimensions 2 by 1, the scene writes
aspectRatio = (2 + 2/10) / (1 + 2/10) = 11/6, which differs from the
claimed measured-width over measured-height ratio 2 / 1: the code derives
the ratio from the padded dimensions, not the measured ones, and its
division guard tests the padded height rather than the measured height. -/
theorem sceneAspect_counterexample :
    (construct { inline := true, padding := none } 2 1 true).map BoundsOut.aspect =
      some ((11 : ℚ) / 6) ∧ ((11 : ℚ) / 6) ≠ 2 / 1 := by
  constructor
  · simp only [construct, write_bounds_info]
    norm_num
  · norm_num

/-- C8 amended: the scene writes the bounds side-channel JSON if and only
if its props declare inline mode and the bounds output path environment
variable is set, and the aspectRatio it writes equals the padded content
width divided by the padded content height, where both dimensions are
enlarged by twice the padding prop (default 1/10), with a fallback of 1
when the padded height is not positive.  The measured width and height are
echoed unpadded, and the echoed padding uses default 0. -/
theorem sceneBounds_amended (props : Props) (w h : ℚ) (pathSet : Bool) :
    (construct props w h pathSet = none ↔
      (props.inline = false ∨ pathSet = false)) ∧
    (∀ out, construct props w h pathSet = some out →
      props.inline = true ∧ pathSet = true ∧
      out.textWidth = w ∧ out.textHeight = h ∧
      out.inline = props.inline ∧ out.padding = props.padding.getD 0 ∧
      out.aspect =
        (if 0 < h + props.padding.getD (1 / 10) * 2 then
          (w + props.padding.getD (1 / 10) * 2) /
            (h + props.padding.getD (1 / 10) * 2)
        else 1)) := by
  cases hinl : props.inline
  · constructor
    · simp [construct, hinl]
    · intro out hout
      rw [construct] at hout
      simp [hinl] at hout
  · cases hps : pathSet
    · constructor
      · simp [construct, write_bounds_info, hinl]
      · intro out hout
        rw [construct] at hout
        simp [hinl, write_bounds_info] at hout
    · constructor
      · simp [construct, write_bounds_info, hinl]
      · intro out hout
        rw [construct] at hout
        simp only [hinl, if_true, write_bounds_info, if_pos rfl,
          Option.some.injEq] at hout
        rw [← hout]
        simp [hinl]

theorem sceneBounds_amended_witness :
    construct { inline := true, padding := some 0 } 4 2 true =
      some { textWidth := 4, textHeight := 2, aspect := 2, inline := true,
             padding := 0 } ∧
    ({ inline := true, padding := some 0 } : Props).inline = true ∧ true = true ∧
    ({ textWidth := 4, textHeight := 2, aspect := 2, inline := true,
       padding := 0 } : BoundsOut).aspect =
      (if 0 < (2 : ℚ) + (({ inline := true, padding := some 0 } :
            Props).padding.getD (1 / 10)) * 2 then
        ((4 : ℚ) + (({ inline := true, padding := some 0 } :
            Props).padding.getD (1 / 10)) * 2) /
          ((2 : ℚ) + (({ inline := true, padding := some 0 } :
            Props).padding.getD (1 / 10)) * 2)
      else 1) := by
  have hout : construct { inline := true, padding := some 0 } 4 2 true =
      some { textWidth := 4, textHeight := 2, aspect := 2, inline := true,
             padding := 0 } := by
    simp only [construct, write_bounds_info]
    norm_num
  have happ := (sceneBounds_amended { inline := true, padding := some 0 } 4 2
    true).2 _ hout
  exact ⟨hout, happ.1, rfl, happ.2.2.2.2.2.2⟩

end ManimScroll
